import Mathlib

/-
Verification of the cryptlex_api_wrapper repository's natural-language
specification against its source.

Embedded source files:
  src/auth.py               — validate_api_key (API-key authorization)
  src/provision_license.py  — _FIELD_MAP, _normalize_body, _response, handler

Modelling conventions:
  * Python/JSON values are the inductive `Json`; Python truthiness is
    `pyTruthy`.  A Python `dict` is an association list with unique keys in
    insertion order; `dictInsert` mirrors `d[k] = v` (update in place,
    else append), `dictGet` mirrors `d.get(k)`, `dictRemove` together with
    `dictGet` mirrors `d.pop(k, default)`.
  * `json.loads` (Python stdlib, not part of the repository) is modelled by
    the executable recursive-descent parser `json_loads`; numbers are
    modelled as integers, which is all the repository's requests use.
    Duplicate keys inside a JSON object collapse through `dictInsert`,
    exactly as Python's dict construction does.
  * External collaborators (the DynamoDB key store, Secrets Manager,
    the Cryptlex client `create_license` from the absent
    src/cryptlex_client.py) are oracle parameters of the handler, collected
    in `Oracles`.  `create_license` returns a `CreateResult`: success,
    a `requests.HTTPError` with an optional response, or any other
    exception.
  * The handler's value is an `Outcome` (an HTTP response, or a Python
    exception propagating out of `handler` uncaught) paired with the list
    of `create_license` invocations actually performed, in order, each
    recorded as (product id, keyword-argument dict).  The call list is
    ghost instrumentation used to state "the upstream client is (never)
    invoked"; it does not alter the control flow translated from the code.
  * `json.dumps` in `_response` is modelled as the identity on abstract
    JSON values: response bodies are kept as `Json`.
-/

/-- JSON / Python value universe used by the embedded code. -/
inductive Json where
  | null : Json
  | bool (b : Bool) : Json
  | num (n : Int) : Json
  | str (s : String) : Json
  | arr (elems : List Json) : Json
  | obj (fields : List (String × Json)) : Json

/-- Python truthiness (`bool(x)`) on the embedded value universe. -/
def pyTruthy : Json → Bool
  | Json.null => false
  | Json.bool b => b
  | Json.num n => n != 0
  | Json.str s => s ≠ ""
  | Json.arr elems => !elems.isEmpty
  | Json.obj fields => !fields.isEmpty

/-- A Python dict: association list in insertion order with unique keys. -/
abbrev Dict := List (String × Json)

/-- Python `d[k] = v`: update the existing entry in place, else append. -/
def dictInsert (d : Dict) (k : String) (v : Json) : Dict :=
  match d with
  | [] => [(k, v)]
  | (k', v') :: t => if k' = k then (k', v) :: t else (k', v') :: dictInsert t k v

/-- Python `d.get(k)`: value at the first (only) occurrence of `k`. -/
def dictGet (d : Dict) (k : String) : Option Json :=
  match d with
  | [] => none
  | (k', v) :: t => if k' = k then some v else dictGet t k

/-- Removal half of Python `d.pop(k, default)`. -/
def dictRemove (d : Dict) (k : String) : Dict :=
  match d with
  | [] => []
  | (k', v) :: t => if k' = k then t else (k', v) :: dictRemove t k

/-- Keys of a dict, in order. -/
def dictKeys (d : Dict) : List String := d.map Prod.fst

/-! ### A model of `json.loads` (Python stdlib)

Recursive-descent parser with explicit fuel.  It accepts the JSON the
repository's requests use (null, booleans, integer numbers, strings with
the single-character escapes, arrays, objects); a failed parse models the
`json.JSONDecodeError` raised by `json.loads`. -/

def jsonWs (c : Char) : Bool := c = ' ' ∨ c = '\t' ∨ c = '\n' ∨ c = '\r'

def skipWs : List Char → List Char
  | [] => []
  | c :: cs => if jsonWs c then skipWs cs else c :: cs

def escChar (c : Char) : Option Char :=
  if c = '"' then some '"'
  else if c = '\\' then some '\\'
  else if c = '/' then some '/'
  else if c = 'b' then some (Char.ofNat 8)
  else if c = 'f' then some (Char.ofNat 12)
  else if c = 'n' then some '\n'
  else if c = 'r' then some '\r'
  else if c = 't' then some '\t'
  else none

/-- Parse the remainder of a string literal, the opening quote consumed. -/
def parseStrBody : List Char → Option (List Char × List Char)
  | [] => none
  | c :: cs =>
    if c = '"' then some ([], cs)
    else if c = '\\' then
      match cs with
      | [] => none
      | e :: cs' =>
        match escChar e with
        | some ec =>
          match parseStrBody cs' with
          | some (s, r) => some (ec :: s, r)
          | none => none
        | none => none
    else
      match parseStrBody cs with
      | some (s, r) => some (c :: s, r)
      | none => none

def takeDigits : List Char → List Char × List Char
  | [] => ([], [])
  | c :: cs =>
    if c.isDigit then
      let (d, r) := takeDigits cs
      (c :: d, r)
    else ([], c :: cs)

def digitsToNat (ds : List Char) : Nat :=
  ds.foldl (fun acc c => acc * 10 + (c.toNat - 48)) 0

def lbrace : Char := Char.ofNat 123
def rbrace : Char := Char.ofNat 125

mutual

/-- Parse one JSON value (leading whitespace allowed). -/
def parseVal : Nat → List Char → Option (Json × List Char)
  | 0, _ => none
  | Nat.succ fuel, cs =>
    match skipWs cs with
    | [] => none
    | c :: rest =>
      if c = 'n' then
        match rest with
        | 'u' :: 'l' :: 'l' :: r => some (Json.null, r)
        | _ => none
      else if c = 't' then
        match rest with
        | 'r' :: 'u' :: 'e' :: r => some (Json.bool true, r)
        | _ => none
      else if c = 'f' then
        match rest with
        | 'a' :: 'l' :: 's' :: 'e' :: r => some (Json.bool false, r)
        | _ => none
      else if c = '"' then
        match parseStrBody rest with
        | some (s, r) => some (Json.str (String.mk s), r)
        | none => none
      else if c = '-' then
        match takeDigits rest with
        | ([], _) => none
        | (ds, r) => some (Json.num (-(digitsToNat ds : Int)), r)
      else if c.isDigit then
        match takeDigits (c :: rest) with
        | ([], _) => none
        | (ds, r) => some (Json.num (digitsToNat ds), r)
      else if c = '[' then
        match skipWs rest with
        | ']' :: r => some (Json.arr [], r)
        | rest' => parseElems fuel rest' []
      else if c = lbrace then
        match skipWs rest with
        | c' :: r => if c' = rbrace then some (Json.obj [], r) else parseMembers fuel (c' :: r) []
        | [] => none
      else none

/-- Parse the elements of a non-empty array, accumulating in order. -/
def parseElems : Nat → List Char → List Json → Option (Json × List Char)
  | 0, _, _ => none
  | Nat.succ fuel, cs, acc =>
    match parseVal fuel cs with
    | none => none
    | some (v, r) =>
      match skipWs r with
      | ',' :: r' => parseElems fuel r' (acc ++ [v])
      | ']' :: r' => some (Json.arr (acc ++ [v]), r')
      | _ => none

/-- Parse the members of a non-empty object; duplicate keys collapse via
`dictInsert`, exactly as Python's dict construction does. -/
def parseMembers : Nat → List Char → Dict → Option (Json × List Char)
  | 0, _, _ => none
  | Nat.succ fuel, cs, acc =>
    match skipWs cs with
    | '"' :: r =>
      match parseStrBody r with
      | none => none
      | some (kcs, r') =>
        match skipWs r' with
        | ':' :: r'' =>
          match parseVal fuel r'' with
          | none => none
          | some (v, r3) =>
            let acc' := dictInsert acc (String.mk kcs) v
            match skipWs r3 with
            | ',' :: r4 => parseMembers fuel r4 acc'
            | c :: r4 => if c = rbrace then some (Json.obj acc', r4) else none
            | [] => none
        | _ => none
    | _ => none

end

/-- Model of Python `json.loads`: parse a full value and require only
whitespace to remain; `none` models a raised `json.JSONDecodeError`. -/
def json_loads (s : String) : Option Json :=
  match parseVal (s.length + 1) s.data with
  | some (v, rest) => if (skipWs rest).isEmpty then some v else none
  | none => none

/-! ### src/auth.py -/

/-- The serverless request event: the fields `validate_api_key` and
`handler` read (`event.get("headers")`, `event.get("body")`). -/
structure Event where
  headers : Option (List (String × String))
  body : Option String

/-- The DynamoDB key table, as the narrow lookup interface the code uses:
`table.get_item(Key=...).get("Item")`.  An item is the record's attribute
dict. -/
abbrev Store := String → Option Dict

/-- Python `s.startswith(p)`, as a character-list prefix test (the
library's `String.startsWith` does not reduce definitionally). -/
def pyStartsWith (s p : String) : Bool := p.data.isPrefixOf s.data

/-- Python `(event.get("headers") or the empty dict).get(name, "")`. -/
def getHeader (event : Event) (name : String) : String :=
  (((event.headers.getD []).find? (fun p => p.1 == name)).map Prod.snd).getD ""

/-- src/auth.py `validate_api_key` (lines 15-38): extract the bearer key,
look it up, and return the item only when it is truthy and its `active`
attribute (defaulting to `True` when absent) is truthy. -/
def validate_api_key (store : Store) (event : Event) : Option Dict :=
  let auth_header := getHeader event "Authorization"
  if !pyStartsWith auth_header "Bearer " then none
  else
    let api_key := auth_header.drop "Bearer ".length
    if api_key = "" then none
    else
      match store api_key with
      | none => none
      | some item =>
        if !item.isEmpty && pyTruthy ((dictGet item "active").getD (Json.bool true))
        then some item else none

/-- The API key string the request presents (what `validate_api_key`
slices off the Authorization header). -/
def apiKeyOf (event : Event) : String :=
  (getHeader event "Authorization").drop "Bearer ".length

/-! ### src/provision_license.py -/

/-- src/provision_license.py `_FIELD_MAP` (lines 26-37): snake_case
convenience fields to Cryptlex camelCase. -/
def _FIELD_MAP : List (String × String) :=
  [("product_id", "productId"),
   ("allowed_activations", "allowedActivations"),
   ("allowed_deactivations", "allowedDeactivations"),
   ("lease_duration", "leaseDuration"),
   ("server_sync_grace_period", "serverSyncGracePeriod"),
   ("server_sync_interval", "serverSyncInterval"),
   ("allowed_clock_offset", "allowedClockOffset"),
   ("subscription_interval", "subscriptionInterval"),
   ("response_validity", "responseValidity"),
   ("fingerprint_matching_strategy", "fingerprintMatchingStrategy")]

/-- Python `_FIELD_MAP.get(key, key)`. -/
def mapKey (k : String) : String :=
  ((_FIELD_MAP.find? (fun p => p.1 == k)).map Prod.snd).getD k

/-- src/provision_license.py `_normalize_body` (lines 40-45):
`for key, value in body.items(): out[_FIELD_MAP.get(key, key)] = value`. -/
def _normalize_body (body : Dict) : Dict :=
  body.foldl (fun out kv => dictInsert out (mapKey kv.1) kv.2) []

/-- An HTTP response the handler returns (src/provision_license.py
`_response`); the body is kept as abstract JSON (`json.dumps` modelled as
the identity on `Json`). -/
structure Response where
  statusCode : Nat
  headers : List (String × String)
  body : Json

/-- src/provision_license.py `_response` (lines 48-53). -/
def _response (status_code : Nat) (body : Json) : Response :=
  ⟨status_code, [("Content-Type", "application/json")], body⟩

/-- A `requests` HTTP response attached to a raised `requests.HTTPError`:
the two attributes the handler reads. -/
structure HttpResp where
  status_code : Nat
  text : String

/-- Outcome of one `create_license` call (src/cryptlex_client.py is an
external collaborator): success with the decoded JSON, a raised
`requests.HTTPError` carrying `exc.response` (possibly `None`) and
`str(exc)`, or any other raised exception. -/
inductive CreateResult where
  | ok (license : Json)
  | httpError (response : Option HttpResp) (msg : String)
  | exn (msg : String)

/-- The handler's external collaborators: the key store behind
`validate_api_key`, `get_cryptlex_credentials` (which may itself raise,
modelled by `Except.error`), and `create_license`. -/
structure Oracles where
  store : Store
  creds : Except String Dict
  create_license : Json → Dict → CreateResult

/-- What one handler invocation produces: an HTTP response, or a Python
exception propagating out of `handler` uncaught. -/
inductive Outcome where
  | resp (r : Response)
  | raised (e : String)

/-- A recorded `create_license` invocation: (product id, kwargs dict). -/
abbrev UpstreamCall := Json × Dict

/-- Python `event.get("body") or` the empty-object literal: `None` and
`""` are the only falsy possibilities, both replaced by the two-character
empty-object text before parsing. -/
def bodySrc (event : Event) : String :=
  let raw := event.body.getD ""
  if raw = "" then String.mk [lbrace, rbrace] else raw

/-- src/provision_license.py lines 79-84: `body.pop("productId", None)`,
then fall back to `get_cryptlex_credentials().get("product_id")` when the
popped value is falsy.  `Except.error` propagates a credential-fetch
exception (the call sits outside any try block). -/
def resolve_product_id (creds : Except String Dict) (product_id : Json) :
    Except String Json :=
  if pyTruthy product_id then Except.ok product_id
  else
    match creds with
    | Except.error e => Except.error e
    | Except.ok c => Except.ok ((dictGet c "product_id").getD Json.null)

/-- src/provision_license.py lines 90-104, the try/except around
`create_license(product_id, **body)`: 200 with the license object on
success (a non-dict success value makes the logging line
`license_data.get("id", "unknown")` raise inside the try, hence 500);
forwarded status/detail for `requests.HTTPError` (502 / `str(exc)` when
`exc.response is None`); generic 500 for any other exception.  The second
component records the `create_license` invocation. -/
def create_step (create : Json → Dict → CreateResult) (product_id : Json)
    (body : Dict) : Outcome × List UpstreamCall :=
  match create product_id body with
  | CreateResult.ok license =>
    match license with
    | Json.obj fields =>
      (Outcome.resp (_response 200 (Json.obj fields)), [(product_id, body)])
    | _ =>
      (Outcome.resp (_response 500 (Json.obj [("error", Json.str "Internal server error.")])),
       [(product_id, body)])
  | CreateResult.httpError response msg =>
    let status := match response with | some r => r.status_code | none => 502
    let detail := match response with | some r => r.text | none => msg
    (Outcome.resp (_response status
        (Json.obj [("error", Json.str "Cryptlex API error"), ("detail", Json.str detail)])),
     [(product_id, body)])
  | CreateResult.exn _ =>
    (Outcome.resp (_response 500 (Json.obj [("error", Json.str "Internal server error.")])),
     [(product_id, body)])

/-- src/provision_license.py `handler` (lines 64-104).  `json.loads` on a
non-dict JSON value makes `_normalize_body(body)` raise `AttributeError`
(`body.items()` on a non-dict), uncaught: the try/except wraps only the
`create_license` step. -/
def handler (o : Oracles) (event : Event) : Outcome × List UpstreamCall :=
  match validate_api_key o.store event with
  | none =>
    (Outcome.resp (_response 401 (Json.obj [("error", Json.str "Unauthorized. Provide a valid API key.")])), [])
  | some _caller =>
    match json_loads (bodySrc event) with
    | none =>
      (Outcome.resp (_response 400 (Json.obj [("error", Json.str "Invalid JSON in request body.")])), [])
    | some (Json.obj fields) =>
      let body := _normalize_body fields
      let product_id := (dictGet body "productId").getD Json.null
      let body := dictRemove body "productId"
      match resolve_product_id o.creds product_id with
      | Except.error e => (Outcome.raised e, [])
      | Except.ok pid =>
        if !pyTruthy pid then
          (Outcome.resp (_response 400 (Json.obj [("error", Json.str "product_id is required.")])), [])
        else create_step o.create_license pid body
    | some _ => (Outcome.raised "AttributeError", [])

/-! ### Theorems -/

/-- C1: for every API key string, if no record with that key exists in the
store, or a record exists but its active flag is false, `validate_api_key`
returns `None`, and the two cases produce identical results, so a caller
cannot distinguish a revoked key from a never-issued one. -/
theorem validate_absent_and_revoked_indistinguishable
    (s₁ s₂ : Store) (event : Event)
    (h₁ : s₁ (apiKeyOf event) = none)
    (h₂ : ∃ item, s₂ (apiKeyOf event) = some item ∧
          dictGet item "active" = some (Json.bool false)) :
    validate_api_key s₁ event = none ∧ validate_api_key s₂ event = none ∧
    validate_api_key s₁ event = validate_api_key s₂ event := by
  obtain ⟨item, hs₂, hact⟩ := h₂
  unfold apiKeyOf at h₁ hs₂
  unfold validate_api_key
  cases hb : pyStartsWith (getHeader event "Authorization") "Bearer " with
  | false => simp [hb]
  | true =>
    simp only [hb, Bool.not_true, Bool.false_eq_true, if_false]
    by_cases hk : (getHeader event "Authorization").drop "Bearer ".length = ""
    · simp [hk]
    · simp [hk, h₁, hs₂, hact, pyTruthy]

/-- Closed instantiation of C1: key "key-1", an empty store versus a store
holding a revoked record for that key. -/
theorem validate_absent_and_revoked_indistinguishable_witness :
    validate_api_key (fun _ => none)
        ⟨some [("Authorization", "Bearer key-1")], none⟩ = none ∧
    validate_api_key
        (fun k => if k = "key-1" then some [("active", Json.bool false)] else none)
        ⟨some [("Authorization", "Bearer key-1")], none⟩ = none ∧
    validate_api_key (fun _ => none)
        ⟨some [("Authorization", "Bearer key-1")], none⟩ =
      validate_api_key
        (fun k => if k = "key-1" then some [("active", Json.bool false)] else none)
        ⟨some [("Authorization", "Bearer key-1")], none⟩ :=
  validate_absent_and_revoked_indistinguishable _ _ _ rfl
    ⟨[("active", Json.bool false)], rfl, rfl⟩

/-- C10: a stored record with no `active` attribute at all is treated as
active: `item.get("active", True)` defaults the missing flag to
authorized, so `validate_api_key` returns the record. -/
theorem validate_missing_active_defaults_authorized
    (store : Store) (event : Event) (item : Dict)
    (hhdr : pyStartsWith (getHeader event "Authorization") "Bearer " = true)
    (hne : apiKeyOf event ≠ "")
    (hkey : store (apiKeyOf event) = some item)
    (hact : dictGet item "active" = none)
    (hitem : item ≠ []) :
    validate_api_key store event = some item := by
  unfold apiKeyOf at hne hkey
  unfold validate_api_key
  simp [hhdr, hne, hkey, hact, pyTruthy, List.isEmpty_eq_false.mpr hitem]

/-- Closed instantiation of C10: a record holding only its key attribute
(no `active` flag) is returned by `validate_api_key`. -/
theorem validate_missing_active_defaults_authorized_witness :
    validate_api_key
        (fun k => if k = "key-2" then some [("api_key", Json.str "key-2")] else none)
        ⟨some [("Authorization", "Bearer key-2")], none⟩ =
      some [("api_key", Json.str "key-2")] :=
  validate_missing_active_defaults_authorized _ _ _ rfl (by decide) rfl rfl
    (List.cons_ne_nil _ _)

/-! ### Lemmas about `dictInsert`, `mapKey` and `_normalize_body` -/

@[simp]
theorem dictKeys_nil : dictKeys [] = [] := rfl

@[simp]
theorem dictKeys_cons (k : String) (v : Json) (t : Dict) :
    dictKeys ((k, v) :: t) = k :: dictKeys t := rfl

theorem dictKeys_dictInsert (d : Dict) (k : String) (v : Json) :
    dictKeys (dictInsert d k v) =
      if k ∈ dictKeys d then dictKeys d else dictKeys d ++ [k] := by
  induction d with
  | nil => simp [dictInsert]
  | cons hd t ih =>
    obtain ⟨k', v'⟩ := hd
    by_cases h : k' = k
    · subst h
      simp [dictInsert]
    · by_cases hm : k ∈ dictKeys t
      · simp [dictInsert, h, ih, hm, List.mem_cons]
      · have hne : ¬k = k' := fun he => h he.symm
        simp [dictInsert, h, ih, hm, List.mem_cons, hne]

theorem dictInsert_of_not_mem (d : Dict) (k : String) (v : Json)
    (h : k ∉ dictKeys d) : dictInsert d k v = d ++ [(k, v)] := by
  induction d with
  | nil => rfl
  | cons hd t ih =>
    obtain ⟨k', v'⟩ := hd
    simp only [dictKeys_cons, List.mem_cons] at h
    push_neg at h
    have hne : ¬k' = k := fun he => h.1 he.symm
    simp [dictInsert, hne, ih h.2]

theorem dictKeys_dictInsert_nodup (d : Dict) (k : String) (v : Json)
    (h : (dictKeys d).Nodup) : (dictKeys (dictInsert d k v)).Nodup := by
  rw [dictKeys_dictInsert]
  by_cases hm : k ∈ dictKeys d
  · simpa [hm]
  · simp [hm, List.nodup_append, h]

/-- A key already on the camelCase side of `_FIELD_MAP` (or outside the
table) is left alone; concretely, every table entry maps its snake_case
key to its camelCase value and leaves the camelCase value fixed. -/
theorem field_map_pairs :
    ∀ p ∈ _FIELD_MAP, mapKey p.1 = p.2 ∧ mapKey p.2 = p.2 := by decide

theorem mapKey_cases (k : String) :
    mapKey k = k ∨ ∃ p ∈ _FIELD_MAP, mapKey k = p.2 := by
  unfold mapKey
  cases hf : _FIELD_MAP.find? (fun p => p.1 == k) with
  | none => simp
  | some p => exact Or.inr ⟨p, List.mem_of_find?_eq_some hf, by simp [hf]⟩

theorem mapKey_idem (k : String) : mapKey (mapKey k) = mapKey k := by
  rcases mapKey_cases k with h | ⟨p, hp, h⟩
  · rw [h, h]
  · rw [h]
    exact (field_map_pairs p hp).2

theorem normalize_foldl_keys_fixed (body : Dict) :
    ∀ acc : Dict, (∀ x ∈ dictKeys acc, mapKey x = x) →
    ∀ x ∈ dictKeys (List.foldl (fun out kv => dictInsert out (mapKey kv.1) kv.2) acc body),
      mapKey x = x := by
  induction body with
  | nil => intro acc hacc; simpa using hacc
  | cons kv t ih =>
    intro acc hacc
    simp only [List.foldl_cons]
    refine ih (dictInsert acc (mapKey kv.1) kv.2) ?_
    intro x hx
    rw [dictKeys_dictInsert] at hx
    by_cases hm : mapKey kv.1 ∈ dictKeys acc
    · rw [if_pos hm] at hx
      exact hacc x hx
    · rw [if_neg hm] at hx
      rcases List.mem_append.mp hx with h | h
      · exact hacc x h
      · have : x = mapKey kv.1 := by simpa using h
        rw [this]
        exact mapKey_idem kv.1

theorem normalize_foldl_keys_nodup (body : Dict) :
    ∀ acc : Dict, (dictKeys acc).Nodup →
    (dictKeys (List.foldl (fun out kv => dictInsert out (mapKey kv.1) kv.2) acc body)).Nodup := by
  induction body with
  | nil => intro acc hacc; simpa using hacc
  | cons kv t ih =>
    intro acc hacc
    simp only [List.foldl_cons]
    exact ih _ (dictKeys_dictInsert_nodup _ _ _ hacc)

theorem dictKeys_append (a b : Dict) : dictKeys (a ++ b) = dictKeys a ++ dictKeys b := by
  simp [dictKeys]

theorem normalize_foldl_fixed (body : Dict) :
    ∀ acc : Dict, (∀ x ∈ dictKeys body, mapKey x = x) → (dictKeys body).Nodup →
    (∀ x ∈ dictKeys body, x ∉ dictKeys acc) →
    List.foldl (fun out kv => dictInsert out (mapKey kv.1) kv.2) acc body = acc ++ body := by
  induction body with
  | nil => intro acc _ _ _; simp
  | cons kv t ih =>
    intro acc hkeys hnd hdisj
    obtain ⟨k, v⟩ := kv
    have hk : mapKey k = k := hkeys k (by simp)
    have hnotin : k ∉ dictKeys acc := hdisj k (by simp)
    simp only [List.foldl_cons]
    rw [hk, dictInsert_of_not_mem acc k v hnotin]
    rw [ih (acc ++ [(k, v)]) (fun x hx => hkeys x (by simp [hx]))
          (List.Nodup.of_cons (by simpa using hnd))
          ?_]
    · simp
    · intro x hx
      rw [dictKeys_append]
      intro hcon
      rcases List.mem_append.mp hcon with h | h
      · exact hdisj x (by simp [hx]) h
      · have hxk : x = k := by simpa using h
        have : k ∉ dictKeys t := by simpa using (List.nodup_cons.mp (by simpa using hnd)).1
        rw [hxk] at hx
        exact this hx

theorem normalize_normal_keys (body : Dict) :
    ∀ x ∈ dictKeys (_normalize_body body), mapKey x = x :=
  normalize_foldl_keys_fixed body [] (by simp)

theorem normalize_keys_nodup (body : Dict) :
    (dictKeys (_normalize_body body)).Nodup :=
  normalize_foldl_keys_nodup body [] (by simp)

/-- Modelled from the spec: the "underscore-named equivalent" of a
camelCase field set (§8) — each field name replaced by the snake_case name
that `_FIELD_MAP` translates to it, names outside the table unchanged.
This is the spec's comparison point for the idempotence claim, not code of
the repository. -/
def _INV_FIELD_MAP : List (String × String) := _FIELD_MAP.map (fun p => (p.2, p.1))

/-- The snake_case rename of one field name, per `_INV_FIELD_MAP`. -/
def invKey (k : String) : String :=
  ((_INV_FIELD_MAP.find? (fun p => p.1 == k)).map Prod.snd).getD k

/-- The underscore-named equivalent of a whole field set. -/
def underscore_equiv (body : Dict) : Dict :=
  body.map (fun kv => (invKey kv.1, kv.2))

theorem mapKey_invKey (k : String) : mapKey (invKey k) = mapKey k := by
  unfold invKey
  cases hf : _INV_FIELD_MAP.find? (fun p => p.1 == k) with
  | none => simp
  | some q =>
    have hq := List.mem_of_find?_eq_some hf
    have hqk : q.1 = k := by simpa using List.find?_some hf
    simp only [hf, Option.map_some', Option.getD_some]
    unfold _INV_FIELD_MAP at hq
    obtain ⟨p, hp, rfl⟩ := List.mem_map.mp hq
    rw [(field_map_pairs p hp).1]
    rw [← hqk]
    exact ((field_map_pairs p hp).2).symm

theorem normalize_underscore_foldl (body : Dict) :
    ∀ acc : Dict,
    List.foldl (fun out kv => dictInsert out (mapKey kv.1) kv.2) acc (underscore_equiv body) =
    List.foldl (fun out kv => dictInsert out (mapKey kv.1) kv.2) acc body := by
  induction body with
  | nil => intro acc; rfl
  | cons kv t ih =>
    intro acc
    simp only [underscore_equiv, List.map_cons, List.foldl_cons, mapKey_invKey]
    exact ih _

/-- C7: field-name normalization is idempotent: `_normalize_body` on the
underscore-named equivalent of a field set yields the same map as on the
field set itself, and normalizing an already-normalized map changes
nothing. -/
theorem normalize_idempotent (body : Dict) :
    _normalize_body (underscore_equiv body) = _normalize_body body ∧
    _normalize_body (_normalize_body body) = _normalize_body body := by
  constructor
  · exact normalize_underscore_foldl body []
  · have := normalize_foldl_fixed (_normalize_body body) []
      (normalize_normal_keys body) (normalize_keys_nodup body) (by simp)
    simpa [_normalize_body] using this

/-- C8 fails as stated: when both forms are present, the winner is the key
occurring later in the body's iteration order, not the underscore-origin
value unconditionally.  Concrete input: `product_id` carrying "u" occurs
first and `productId` carrying "c" occurs second; the kept value is "c",
not the renamed underscore value "u". -/
theorem normalize_conflict_counterexample :
    _normalize_body [("product_id", Json.str "u"), ("productId", Json.str "c")] =
      [("productId", Json.str "c")] ∧
    ("c" : String) ≠ "u" := ⟨rfl, by decide⟩

theorem dictGet_dictInsert_self (d : Dict) (k : String) (v : Json) :
    dictGet (dictInsert d k v) k = some v := by
  induction d with
  | nil => simp [dictInsert, dictGet]
  | cons hd tl ih =>
    obtain ⟨k', v'⟩ := hd
    by_cases h : k' = k
    · subst h
      simp [dictInsert, dictGet]
    · simp [dictInsert, dictGet, h, ih]

theorem dictGet_dictInsert_ne (d : Dict) (k : String) (v : Json) (t : String)
    (h : t ≠ k) : dictGet (dictInsert d k v) t = dictGet d t := by
  have hkt : ¬k = t := fun he => h he.symm
  induction d with
  | nil => simp [dictInsert, dictGet, hkt]
  | cons hd tl ih =>
    obtain ⟨k', v'⟩ := hd
    by_cases hk : k' = k
    · subst hk
      simp [dictInsert, dictGet, hkt]
    · by_cases ht : k' = t
      · subst ht
        simp [dictInsert, dictGet, hk]
      · simp [dictInsert, dictGet, hk, ht, ih]

theorem getLast?_cons_isSome {α : Type} (a : α) (l : List α) :
    ((a :: l).getLast?).isSome = true := by
  induction l generalizing a with
  | nil => rfl
  | cons b bs ih =>
    rw [List.getLast?_cons_cons]
    exact ih b

/-- The normalization fold realizes last-applied-wins at every target
name: the folded dict's entry at `t` carries the value of the last body
entry whose key normalizes to `t`, and falls back to the accumulator when
no body entry maps to `t`. -/
theorem normalize_foldl_lastwins (t : String) (body : Dict) :
    ∀ acc : Dict,
    dictGet (List.foldl (fun out kv => dictInsert out (mapKey kv.1) kv.2) acc body) t =
      match (body.filter (fun kv => mapKey kv.1 == t)).getLast? with
      | some kv => some kv.2
      | none => dictGet acc t := by
  induction body with
  | nil => intro acc; rfl
  | cons kv tl ih =>
    intro acc
    simp only [List.foldl_cons]
    rw [ih]
    rw [List.filter_cons]
    by_cases hp : mapKey kv.1 = t
    · have hbt : (mapKey kv.1 == t) = true := by simp [hp]
      rw [if_pos hbt]
      cases hfil : tl.filter (fun kv => mapKey kv.1 == t) with
      | nil =>
        rw [hp]
        exact dictGet_dictInsert_self acc t kv.2
      | cons a as =>
        rw [List.getLast?_cons_cons]
        cases hg : (a :: as).getLast? with
        | some x => rfl
        | none =>
          have hs := getLast?_cons_isSome a as
          rw [hg] at hs
          exact absurd hs (by simp)
    · have hbf : ¬((mapKey kv.1 == t) = true) := by simp [hp]
      rw [if_neg hbf]
      cases hg : (tl.filter (fun kv => mapKey kv.1 == t)).getLast? with
      | some x => rfl
      | none =>
        exact dictGet_dictInsert_ne acc (mapKey kv.1) kv.2 t (fun he => hp he.symm)

/-- C8 amended: last-applied wins, for every body: the normalized map's
entry at any normalized field name carries the value of the LAST entry in
the body's iteration order whose key normalizes to that name, wherever the
conflicting forms sit and whatever other fields surround them.  In
particular, with both `product_id` and `productId` present (both normalize
to "productId"), the later occurrence's value is kept: the renamed
underscore-origin value wins exactly when the underscore form occurs after
the camelCase form, not regardless of order. -/
theorem normalize_conflict_last_applied_wins (body : Dict) (t : String) (u c : Json) :
    dictGet (_normalize_body body) t =
      ((body.filter (fun kv => mapKey kv.1 == t)).getLast?).map Prod.snd ∧
    _normalize_body [("productId", c), ("product_id", u)] = [("productId", u)] ∧
    _normalize_body [("product_id", u), ("productId", c)] = [("productId", c)] := by
  refine ⟨?_, ?_, ?_⟩
  · rw [_normalize_body, normalize_foldl_lastwins t body []]
    cases (body.filter (fun kv => mapKey kv.1 == t)).getLast? with
    | some a => rfl
    | none => rfl
  · simp [_normalize_body, mapKey, _FIELD_MAP, dictInsert]
  · simp [_normalize_body, mapKey, _FIELD_MAP, dictInsert]

/-! ### Handler path lemmas -/

/-- Reaching the create step: under an authorized key, a JSON-object body
and a truthy resolved product id, the handler's outcome is exactly the
create step on the normalized body with the product id popped. -/
theorem handler_create_path (o : Oracles) (event : Event) (caller fields : Dict) (pid : Json)
    (hauth : validate_api_key o.store event = some caller)
    (hparse : json_loads (bodySrc event) = some (Json.obj fields))
    (hres : resolve_product_id o.creds
        ((dictGet (_normalize_body fields) "productId").getD Json.null) = Except.ok pid)
    (ht : pyTruthy pid = true) :
    handler o event =
      create_step o.create_license pid (dictRemove (_normalize_body fields) "productId") := by
  unfold handler
  rw [hauth, hparse]
  simp only [hres, ht, Bool.not_true, Bool.false_eq_true, if_false]

/-- Every branch of the create step records exactly one upstream call,
with the given product id and kwargs. -/
theorem create_step_calls (create : Json → Dict → CreateResult) (pid : Json) (body : Dict) :
    (create_step create pid body).2 = [(pid, body)] := by
  unfold create_step
  cases create pid body with
  | ok license => cases license <;> rfl
  | httpError response msg => rfl
  | exn msg => rfl

/-! ### Concrete fixtures for witnesses and counterexamples -/

/-- Fixture: an event presenting API key "key-1" with the given body. -/
def evFix (body : Option String) : Event :=
  ⟨some [("Authorization", "Bearer key-1")], body⟩

/-- Fixture: a store holding exactly one active record, for "key-1". -/
def storeFix : Store :=
  fun k => if k = "key-1" then some [("api_key", Json.str "key-1")] else none

/-- Fixture: Cryptlex credentials carrying default product id
"default-prod". -/
def credsFix : Except String Dict :=
  Except.ok [("product_id", Json.str "default-prod")]

/-- Fixture: an upstream client that always succeeds with a fixed
license object. -/
def createFix : Json → Dict → CreateResult :=
  fun _ _ => CreateResult.ok (Json.obj [("id", Json.str "lic-1")])

/-! ### Handler claims -/

/-- C2 fails as stated: a body that supplies the `productId` field
explicitly but with a falsy value (here the empty string) does not reach
`create_license` with that supplied value — the configured default
"default-prod" is used in its place, because the code tests
`if not product_id` on the popped value. -/
theorem explicit_product_id_counterexample :
    json_loads "\x7b\"productId\": \"\"\x7d" =
        some (Json.obj [("productId", Json.str "")]) ∧
    handler ⟨storeFix, credsFix, createFix⟩
        (evFix (some "\x7b\"productId\": \"\"\x7d")) =
      (Outcome.resp (_response 200 (Json.obj [("id", Json.str "lic-1")])),
       [(Json.str "default-prod", [])]) ∧
    ("default-prod" : String) ≠ "" :=
  ⟨rfl, rfl, by decide⟩

/-- C2 amended: for every provision request whose body supplies an
explicit product identifier with a truthy value, `create_license` receives
exactly that value, and the outcome does not depend on the configured
credentials at all (the default is never consulted). -/
theorem explicit_truthy_product_id_always_used
    (store : Store) (create : Json → Dict → CreateResult) (event : Event)
    (caller fields : Dict) (pid : Json)
    (hauth : validate_api_key store event = some caller)
    (hparse : json_loads (bodySrc event) = some (Json.obj fields))
    (hpid : dictGet (_normalize_body fields) "productId" = some pid)
    (ht : pyTruthy pid = true) (c₁ c₂ : Except String Dict) :
    (handler ⟨store, c₁, create⟩ event).2 =
        [(pid, dictRemove (_normalize_body fields) "productId")] ∧
    handler ⟨store, c₁, create⟩ event = handler ⟨store, c₂, create⟩ event := by
  have hres : ∀ c : Except String Dict,
      resolve_product_id c ((dictGet (_normalize_body fields) "productId").getD Json.null) =
        Except.ok pid := by
    intro c
    rw [hpid]
    simp [resolve_product_id, ht]
  constructor
  · rw [handler_create_path ⟨store, c₁, create⟩ event caller fields pid hauth hparse (hres c₁) ht]
    exact create_step_calls create pid _
  · rw [handler_create_path ⟨store, c₁, create⟩ event caller fields pid hauth hparse (hres c₁) ht,
        handler_create_path ⟨store, c₂, create⟩ event caller fields pid hauth hparse (hres c₂) ht]

/-- Closed instantiation of the amended C2: body supplying
`product_id = "prod-1"`; the upstream call receives "prod-1" whether the
configured default exists or not. -/
theorem explicit_truthy_product_id_always_used_witness :
    (handler ⟨storeFix, credsFix, createFix⟩
        (evFix (some "\x7b\"product_id\": \"prod-1\"\x7d"))).2 =
      [(Json.str "prod-1", [])] ∧
    handler ⟨storeFix, credsFix, createFix⟩
        (evFix (some "\x7b\"product_id\": \"prod-1\"\x7d")) =
      handler ⟨storeFix, Except.ok [], createFix⟩
        (evFix (some "\x7b\"product_id\": \"prod-1\"\x7d")) :=
  explicit_truthy_product_id_always_used storeFix createFix
    (evFix (some "\x7b\"product_id\": \"prod-1\"\x7d"))
    [("api_key", Json.str "key-1")] [("product_id", Json.str "prod-1")]
    (Json.str "prod-1") rfl rfl rfl rfl credsFix (Except.ok [])

/-- C3 fails as stated: not every unanticipated failure yields a 500
response.  A syntactically valid but non-object body ("5") makes
`_normalize_body(body)` raise `AttributeError` outside any try block, so
the exception propagates out of the handler instead of a 500 response. -/
theorem internal_error_uncaught_counterexample :
    json_loads "5" = some (Json.num 5) ∧
    handler ⟨storeFix, credsFix, createFix⟩ (evFix (some "5")) =
      (Outcome.raised "AttributeError", []) :=
  ⟨rfl, rfl⟩

/-- C3 amended: an unanticipated failure raised during the
`create_license` step (the code inside the handler's try block) yields
status 500 with the fixed generic body; the response is a constant
independent of the failure's detail text, so the detail never appears in
the body. -/
theorem create_exception_returns_500
    (o : Oracles) (event : Event) (caller fields : Dict) (pid : Json) (msg : String)
    (hauth : validate_api_key o.store event = some caller)
    (hparse : json_loads (bodySrc event) = some (Json.obj fields))
    (hres : resolve_product_id o.creds
        ((dictGet (_normalize_body fields) "productId").getD Json.null) = Except.ok pid)
    (ht : pyTruthy pid = true)
    (hexn : o.create_license pid (dictRemove (_normalize_body fields) "productId") =
        CreateResult.exn msg) :
    handler o event =
      (Outcome.resp (_response 500 (Json.obj [("error", Json.str "Internal server error.")])),
       [(pid, dictRemove (_normalize_body fields) "productId")]) := by
  rw [handler_create_path o event caller fields pid hauth hparse hres ht]
  unfold create_step
  rw [hexn]

/-- Closed instantiation of the amended C3: the upstream client raises a
non-HTTP exception "boom"; the handler answers 500 with the generic body,
"boom" nowhere in it. -/
theorem create_exception_returns_500_witness :
    handler ⟨storeFix, credsFix, fun _ _ => CreateResult.exn "boom"⟩ (evFix none) =
      (Outcome.resp (_response 500 (Json.obj [("error", Json.str "Internal server error.")])),
       [(Json.str "default-prod", [])]) :=
  create_exception_returns_500 _ _ [("api_key", Json.str "key-1")] []
    (Json.str "default-prod") "boom" rfl rfl rfl rfl rfl

/-- C4 fails as stated: a present body equal to the empty string is not
valid JSON, yet the handler replaces it with the empty-object text
(`event.get("body") or` the empty-object literal), returns 200 and does
invoke the upstream client. -/
theorem invalid_json_empty_body_counterexample :
    json_loads "" = none ∧
    handler ⟨storeFix, credsFix, createFix⟩ (evFix (some "")) =
      (Outcome.resp (_response 200 (Json.obj [("id", Json.str "lic-1")])),
       [(Json.str "default-prod", [])]) :=
  ⟨rfl, rfl⟩

/-- C4 amended: for every authorized request whose body is present,
non-empty and not syntactically valid JSON, the handler returns 400 and
the upstream client is never invoked. -/
theorem invalid_json_nonempty_body_returns_400
    (o : Oracles) (event : Event) (caller : Dict) (s : String)
    (hauth : validate_api_key o.store event = some caller)
    (hbody : event.body = some s)
    (hne : s ≠ "")
    (hbad : json_loads s = none) :
    handler o event =
      (Outcome.resp (_response 400 (Json.obj [("error", Json.str "Invalid JSON in request body.")])),
       []) := by
  unfold handler bodySrc
  rw [hauth, hbody]
  simp [hne, hbad]

/-- Closed instantiation of the amended C4: body "not json" yields 400
with no upstream call. -/
theorem invalid_json_nonempty_body_returns_400_witness :
    handler ⟨storeFix, credsFix, createFix⟩ (evFix (some "not json")) =
      (Outcome.resp (_response 400 (Json.obj [("error", Json.str "Invalid JSON in request body.")])),
       []) :=
  invalid_json_nonempty_body_returns_400 _ _ [("api_key", Json.str "key-1")]
    "not json" rfl rfl (by decide) rfl

/-- C5: an authorized body carrying no product identifier, with no default
configured either, yields 400 with the body naming the `product_id` field,
and the upstream client is never invoked. -/
theorem missing_product_id_no_default_returns_400
    (o : Oracles) (event : Event) (caller fields c : Dict)
    (hauth : validate_api_key o.store event = some caller)
    (hparse : json_loads (bodySrc event) = some (Json.obj fields))
    (hnopid : dictGet (_normalize_body fields) "productId" = none)
    (hcreds : o.creds = Except.ok c)
    (hnodef : dictGet c "product_id" = none) :
    handler o event =
      (Outcome.resp (_response 400 (Json.obj [("error", Json.str "product_id is required.")])),
       []) := by
  unfold handler
  rw [hauth, hparse]
  simp [resolve_product_id, hnopid, hcreds, hnodef, pyTruthy]

/-- Closed instantiation of C5: absent body (hence empty object), empty
credentials dict. -/
theorem missing_product_id_no_default_returns_400_witness :
    handler ⟨storeFix, Except.ok [], createFix⟩ (evFix none) =
      (Outcome.resp (_response 400 (Json.obj [("error", Json.str "product_id is required.")])),
       []) :=
  missing_product_id_no_default_returns_400 _ _ [("api_key", Json.str "key-1")]
    [] [] rfl rfl rfl rfl rfl

/-- C6: when `create_license` fails with an HTTP error, the handler
forwards the upstream's own status code and its response body as the
detail text, and uses 502 (with `str(exc)` as detail) when the error
carries no upstream response. -/
theorem upstream_http_error_forwarded
    (o : Oracles) (event : Event) (caller fields : Dict) (pid : Json)
    (r : Option HttpResp) (msg : String)
    (hauth : validate_api_key o.store event = some caller)
    (hparse : json_loads (bodySrc event) = some (Json.obj fields))
    (hres : resolve_product_id o.creds
        ((dictGet (_normalize_body fields) "productId").getD Json.null) = Except.ok pid)
    (ht : pyTruthy pid = true)
    (herr : o.create_license pid (dictRemove (_normalize_body fields) "productId") =
        CreateResult.httpError r msg) :
    (∀ hr : HttpResp, r = some hr → handler o event =
      (Outcome.resp (_response hr.status_code
          (Json.obj [("error", Json.str "Cryptlex API error"), ("detail", Json.str hr.text)])),
       [(pid, dictRemove (_normalize_body fields) "productId")])) ∧
    (r = none → handler o event =
      (Outcome.resp (_response 502
          (Json.obj [("error", Json.str "Cryptlex API error"), ("detail", Json.str msg)])),
       [(pid, dictRemove (_normalize_body fields) "productId")])) := by
  have hmain := handler_create_path o event caller fields pid hauth hparse hres ht
  constructor
  · intro hr hrr
    rw [hmain]
    unfold create_step
    rw [herr, hrr]
  · intro hrr
    rw [hmain]
    unfold create_step
    rw [herr, hrr]

/-- Closed instantiation of C6: upstream rejects with 403 / "denied"; the
handler forwards 403 with detail "denied". -/
theorem upstream_http_error_forwarded_witness :
    handler ⟨storeFix, credsFix,
        fun _ _ => CreateResult.httpError (some ⟨403, "denied"⟩) "403 Client Error"⟩
      (evFix none) =
      (Outcome.resp (_response 403
          (Json.obj [("error", Json.str "Cryptlex API error"), ("detail", Json.str "denied")])),
       [(Json.str "default-prod", [])]) :=
  (upstream_http_error_forwarded
      ⟨storeFix, credsFix,
        fun _ _ => CreateResult.httpError (some ⟨403, "denied"⟩) "403 Client Error"⟩
      (evFix none) [("api_key", Json.str "key-1")] []
      (Json.str "default-prod") (some ⟨403, "denied"⟩) "403 Client Error"
      rfl rfl rfl rfl rfl).1 ⟨403, "denied"⟩ rfl

/-- C9: every request that reaches the upstream call passes, as the
extra-field map, exactly the normalized body with the product identifier
entry popped — every other key/value pair forwarded unchanged, nothing
added, dropped or coerced. -/
theorem forwarded_fields_exact_frame
    (o : Oracles) (event : Event) (caller fields : Dict) (pid : Json)
    (hauth : validate_api_key o.store event = some caller)
    (hparse : json_loads (bodySrc event) = some (Json.obj fields))
    (hres : resolve_product_id o.creds
        ((dictGet (_normalize_body fields) "productId").getD Json.null) = Except.ok pid)
    (ht : pyTruthy pid = true) :
    (handler o event).2 = [(pid, dictRemove (_normalize_body fields) "productId")] := by
  rw [handler_create_path o event caller fields pid hauth hparse hres ht]
  exact create_step_calls o.create_license pid _

/-- Closed instantiation of C9, the spec's §8 scenario: body
`product_id = "prod-1", allowed_activations = 5, type = "node-locked"`
reaches the upstream as `("prod-1", allowedActivations = 5,
type = "node-locked")`. -/
theorem forwarded_fields_exact_frame_witness :
    (handler ⟨storeFix, credsFix, createFix⟩
        (evFix (some "\x7b\"product_id\": \"prod-1\", \"allowed_activations\": 5, \"type\": \"node-locked\"\x7d"))).2 =
      [(Json.str "prod-1",
        [("allowedActivations", Json.num 5), ("type", Json.str "node-locked")])] :=
  forwarded_fields_exact_frame _ _ [("api_key", Json.str "key-1")]
    [("product_id", Json.str "prod-1"), ("allowed_activations", Json.num 5),
     ("type", Json.str "node-locked")]
    (Json.str "prod-1") rfl rfl rfl rfl
